import Mathlib

/-! Verification of the branch-service ticketing platform's token lifecycle and
dispatch engine: a shallow embedding of `modules/token_manager.py`,
`utils/helpers.py`, `config.py` and the staff HTTP endpoints of
`api/staff_routes.py`, together with theorems about ticket numbering, queue
selection, status transitions, cancellation and fan-out behaviour.

The persistent store (`tokens` table) is modelled as a `List Token` kept in
insertion (= primary-key) order; timestamps are natural numbers; the calendar
day of a timestamp is carried alongside it as the `YYYYMMDD` string that
`strftime` would produce; Python `None` becomes `Option.none`. -/

namespace Banking

/-- Mirrors the `User` model of `database/models.py` (only the fields the
dispatch engine reads: primary key, `role`, nullable `account_number`). -/
structure User where
  user_id : Nat
  role : String
  account_number : Option String
deriving DecidableEq

/-- Mirrors the `Token` model of `database/models.py`. `generated_date` is the
`YYYYMMDD` day of `generated_at`, i.e. what `db.func.date`/`strftime('%Y%m%d')`
extract from the stored datetime. -/
structure Token where
  token_id : Nat
  token_number : String
  customer_id : Nat
  service_type : String
  priority : String
  status : String
  counter_number : Option String
  estimated_wait_time : Option Nat
  generated_at : Nat
  generated_date : String
  called_at : Option Nat
  completed_at : Option Nat
  notes : Option String
  served_by : Option Nat
deriving DecidableEq

/-- Result dictionary `{'status': ..., 'message': ...}` returned by
`cancel_token`. -/
structure OpResult where
  status : String
  message : String
deriving DecidableEq

/-- Result dictionary of `call_next_token` / `complete_token`: status, message
and (on success) the token payload. -/
structure CallResult where
  status : String
  message : String
  token : Option Token
deriving DecidableEq

/-- One `emit(event, ..., room=...)` WebSocket fan-out call. -/
structure Event where
  event : String
  room : String
deriving DecidableEq

/-- `Config.TOKEN_PREFIX` from `config.py`. -/
def TOKEN_PREFIX : String := "TKN"

/-- `utils/helpers.py` `calculate_wait_time(waiting_count, avg_service_time=5)`;
the Python default for `avg_service_time` is the constant 5 and every caller in
the engine uses that default. -/
def calculate_wait_time (waiting_count avg_service_time : Nat) : Nat :=
  waiting_count * avg_service_time

/-- Python `f"{n:03d}"`: the decimal representation left-padded with zeros to at
least three characters; numbers of four or more digits keep all their digits. -/
def pad3 (n : Nat) : String :=
  if n < 1000 then
    String.mk [Nat.digitChar (n / 100), Nat.digitChar (n / 10 % 10), Nat.digitChar (n % 10)]
  else toString n

/-- `utils/helpers.py` `generate_token_number`: `f"{prefix}{date_str}{sequence:03d}"`. -/
def generate_token_number (pfx date_str : String) (sequence : Nat) : String :=
  pfx ++ date_str ++ pad3 sequence

/-- Python slice `s[-n:]`: the final `n` characters (the whole string when it is
shorter than `n`). -/
def lastChars (n : Nat) (s : String) : String :=
  String.mk (s.data.drop (s.data.length - n))

/-- Python `int(s)` on a string of decimal digits. -/
def parseDigits (s : String) : Nat :=
  s.data.foldl (fun acc c => acc * 10 + (c.toNat - 48)) 0

/-- The sequence component read back from a ticket number: its final three
characters, exactly as the allocator reads it at `token_manager.py` line 27
(`int(last_token.token_number[-3:])`). -/
def parseSeq (number : String) : Nat :=
  parseDigits (lastChars 3 number)

/-- The date component read back from a ticket number: the eight characters
immediately before the final three (Python `number[-11:-3]`). -/
def parseDate (number : String) : String :=
  String.mk ((number.data.drop (number.data.length - 11)).take 8)

/-- The sequence the allocator would read back from a stored token. -/
def tokSeq (t : Token) : Nat :=
  parseSeq t.token_number

/-- Substring containment on character lists, modelling Python's `in` on
strings. -/
def containsSub (needle : List Char) : List Char → Bool
  | [] => needle.isEmpty
  | c :: rest => needle.isPrefixOf (c :: rest) || containsSub needle rest

/-- Python `customer.account_number and 'VIP' in customer.account_number`: a
falsy (`None` or empty) account number fails the test, otherwise substring
containment of `VIP` decides it. -/
def accountHasVIP : Option String → Bool
  | none => false
  | some s => containsSub ['V', 'I', 'P'] s.data

/-- `token_manager.determine_priority` (lines 60-68). -/
def determine_priority (customer : User) : String :=
  if customer.role = "admin" then "vip"
  else if accountHasVIP customer.account_number then "vip"
  else "normal"

/-- `token_manager.get_token_by_id` (`Token.query.get(token_id)`): lookup by
primary key. -/
def get_token_by_id (store : List Token) (token_id : Nat) : Option Token :=
  store.find? (fun t => decide (t.token_id = token_id))

/-- The rows satisfying `db.func.date(Token.generated_at) == today`. -/
def todayTokens (store : List Token) (today : String) : List Token :=
  store.filter (fun t => decide (t.generated_date = today))

/-- The `Token.query.filter(date(generated_at) == today)
.order_by(Token.token_id.desc()).first()` query of `generate_token`
(lines 21-23): among today's rows, the one with the greatest `token_id`. -/
def last_token_of_today (store : List Token) (today : String) : Option Token :=
  (todayTokens store today).foldl
    (fun acc t =>
      match acc with
      | none => some t
      | some m => if m.token_id < t.token_id then some t else some m) none

/-- Lines 26-30 of `generate_token`: `int(last_token.token_number[-3:]) + 1`
when a token already exists for the date, else 1. -/
def nextSequence (store : List Token) (today : String) : Nat :=
  match last_token_of_today store today with
  | none => 1
  | some t => parseSeq t.token_number + 1

/-- The autoincrement primary key assigned by the database to a freshly
inserted row: one more than the largest id in the table. -/
def newTokenId (store : List Token) : Nat :=
  (store.map (fun t => t.token_id)).foldl max 0 + 1

/-- `Token.query.filter_by(status='waiting').count()`. -/
def count_waiting (store : List Token) : Nat :=
  (store.filter (fun t => decide (t.status = "waiting"))).length

/-- The row the `Token(...)` constructor call inside `generate_token`
(lines 41-48) builds: number from the per-day sequence, priority from the
customer, status `waiting`, id from the autoincrement key, and no wait
estimate yet. -/
def issuedToken (store : List Token) (customer : User) (customer_id : Nat)
    (service_type : String) (notes : Option String) (today : String) (now : Nat) :
    Token :=
  { token_id := newTokenId store,
    token_number := generate_token_number TOKEN_PREFIX today (nextSequence store today),
    customer_id := customer_id, service_type := service_type,
    priority := determine_priority customer, status := "waiting",
    counter_number := none, estimated_wait_time := none, generated_at := now,
    generated_date := today, called_at := none, completed_at := none,
    notes := notes, served_by := none }

/-- `token_manager.generate_token` (lines 8-58): derives the next per-day
sequence from today's highest-id row, formats the number, resolves the
customer's priority, inserts the token with status `waiting`, then stores in
that row the wait estimate computed over the post-insert waiting count (with
the default average service time of 5 minutes). An unknown `customer_id`
makes the Python code raise before anything is committed; that is modelled as
`none` with the store untouched. Returns the committed store and the stored
token. -/
def generate_token (users : List User) (store : List Token) (customer_id : Nat)
    (service_type : String) (notes : Option String) (today : String) (now : Nat) :
    Option (List Token × Token) :=
  match users.find? (fun u => decide (u.user_id = customer_id)) with
  | none => none
  | some customer =>
    let token := issuedToken store customer customer_id service_type notes today now
    let token2 := { token with
      estimated_wait_time :=
        some (calculate_wait_time (count_waiting (store ++ [token])) 5) }
    some ((store ++ [token]).map
      (fun t => if t.token_id = token.token_id then token2 else t), token2)

/-- Python truthiness of an optional string under `if x:`: `None` and the empty
string are falsy. -/
def truthyStr : Option String → Bool
  | none => false
  | some s => decide (s ≠ "")

/-- Python truthiness of an optional user argument (`if served_by:`): a user
object is truthy whenever present. -/
def truthyUser : Option Nat → Bool
  | none => false
  | some _ => true

/-- `token_manager.update_token_status` (lines 85-109): looks the token up by
id and unconditionally assigns the requested status — there is no state-machine
check; transitioning to `in_progress` additionally stamps `called_at` and,
when truthy, `counter_number` and `served_by`; transitioning to `completed`
stamps `completed_at` and, when truthy, `served_by`; truthy `notes` overwrite
the stored notes. Returns `none` (and commits nothing) only when the token does
not exist. The result is the returned token paired with the committed store. -/
def update_token_status (store : List Token) (token_id : Nat) (status : String)
    (counter_number : Option String) (notes : Option String)
    (served_by : Option Nat) (now : Nat) : Option Token × List Token :=
  match get_token_by_id store token_id with
  | none => (none, store)
  | some tok =>
    let t1 := { tok with status := status }
    let t2 :=
      if status = "in_progress" then
        { t1 with called_at := some now,
                  counter_number :=
                    if truthyStr counter_number then counter_number else t1.counter_number,
                  served_by :=
                    if truthyUser served_by then served_by else t1.served_by }
      else if status = "completed" then
        { t1 with completed_at := some now,
                  served_by :=
                    if truthyUser served_by then served_by else t1.served_by }
      else t1
    let t3 := if truthyStr notes then { t2 with notes := notes } else t2
    (some t3, store.map (fun t => if t.token_id = token_id then t3 else t))

/-- `token_manager.cancel_token` (lines 160-188): not-found, then ownership,
then waiting-status checks, in that order; only after all three pass is the
status set to `cancelled` and committed. -/
def cancel_token (store : List Token) (token_id customer_id : Nat) :
    OpResult × List Token :=
  match get_token_by_id store token_id with
  | none => (⟨"error", "Token not found"⟩, store)
  | some tok =>
    if tok.customer_id ≠ customer_id then
      (⟨"error", "Unauthorized to cancel this token"⟩, store)
    else if tok.status ≠ "waiting" then
      (⟨"error", "Only waiting tokens can be cancelled"⟩, store)
    else
      let t := { tok with status := "cancelled" }
      (⟨"success", "Token cancelled successfully"⟩,
        store.map (fun u => if u.token_id = token_id then t else u))

/-- Code-point-wise lexicographic comparison of character lists: the BINARY
collation the database applies to a TEXT column under `ORDER BY` (byte-wise
memcmp, which on the ASCII priority strings is exactly code-point order). -/
def charListLt : List Char → List Char → Bool
  | [], [] => false
  | [], _ :: _ => true
  | _ :: _, [] => false
  | a :: as, b :: bs =>
    if a.toNat < b.toNat then true
    else if b.toNat < a.toNat then false
    else charListLt as bs

/-- The string order realised by `ORDER BY` on the TEXT `priority` column. -/
def strLt (a b : String) : Bool :=
  charListLt a.data b.data

/-- The `ORDER BY Token.priority DESC, Token.generated_at ASC` comparison of
`get_next_token_to_call`: `a` strictly precedes `b` when its stored priority
string is greater in the column's collation, or the strings are equal and `a`
was generated strictly earlier. -/
def beforeInCallOrder (a b : Token) : Bool :=
  if a.priority = b.priority then decide (a.generated_at < b.generated_at)
  else strLt b.priority a.priority

/-- SQL `first()` under the above `ORDER BY`: the minimal row with respect to
the strict comparison, the earliest-stored row among ties (rows are scanned in
primary-key order). -/
def firstByCallOrder (l : List Token) : Option Token :=
  l.foldl
    (fun acc t =>
      match acc with
      | none => some t
      | some m => if beforeInCallOrder t m then some t else some m) none

/-- `token_manager.get_next_token_to_call` (lines 190-195). -/
def get_next_token_to_call (store : List Token) : Option Token :=
  firstByCallOrder (store.filter (fun t => decide (t.status = "waiting")))

/-- `token_manager.call_next_token` (lines 197-218): selects the queue head; on
an empty queue returns the error result without touching the store, otherwise
delegates to `update_token_status` with status `in_progress`. -/
def call_next_token (store : List Token) (counter_number : String)
    (served_by now : Nat) : CallResult × List Token :=
  match get_next_token_to_call store with
  | none => (⟨"error", "No tokens in queue", none⟩, store)
  | some tok =>
    let r := update_token_status store tok.token_id "in_progress"
      (some counter_number) none (some served_by) now
    (⟨"success",
      "Token " ++ tok.token_number ++ " called to Counter " ++ counter_number,
      r.1⟩, r.2)

/-- `token_manager.complete_token` (lines 220-246): not-found check, then the
`in_progress` guard, then delegation to `update_token_status` with status
`completed`. -/
def complete_token (store : List Token) (token_id served_by now : Nat) :
    CallResult × List Token :=
  match get_token_by_id store token_id with
  | none => (⟨"error", "Token not found", none⟩, store)
  | some tok =>
    if tok.status ≠ "in_progress" then
      (⟨"error", "Token is not in progress", none⟩, store)
    else
      let r := update_token_status store token_id "completed" none none (some served_by) now
      (⟨"success", "Token completed successfully", r.1⟩, r.2)

/-- `staff_routes.call_next_token_endpoint` (lines 223-255): runs
`call_next_token`; on an error result it answers HTTP 400 with that body and
emits no WebSocket event; on success it emits `token_called` to the owner's
room and `token_updated` to the staff and admin rooms. The triple is
(response body, committed store, emitted events in order). -/
def call_next_token_endpoint (store : List Token) (counter_number : String)
    (served_by now : Nat) : CallResult × List Token × List Event :=
  let r := call_next_token store counter_number served_by now
  if r.1.status = "error" then (r.1, r.2, [])
  else
    let cid := (r.1.token.map (fun t => t.customer_id)).getD 0
    (r.1, r.2,
      [⟨"token_called", "customer_" ++ toString cid⟩,
       ⟨"token_updated", "staff"⟩,
       ⟨"token_updated", "admin"⟩])

/-- `staff_routes.call_token` (lines 182-221), the CallSpecific operation: it
moves the named token straight to `in_progress` through `update_token_status`,
with no check of the token's current status; the only failure is 404 when the
token does not exist, in which case nothing is emitted. -/
def call_token (store : List Token) (token_id : Nat) (counter_number : String)
    (served_by now : Nat) : CallResult × List Token × List Event :=
  let r := update_token_status store token_id "in_progress"
    (some counter_number) none (some served_by) now
  match r.1 with
  | none => (⟨"error", "Token not found", none⟩, store, [])
  | some tok =>
    (⟨"success", "Token " ++ tok.token_number ++ " called to " ++ counter_number,
      some tok⟩, r.2,
     [⟨"token_called", "customer_" ++ toString tok.customer_id⟩,
      ⟨"token_updated", "staff"⟩,
      ⟨"token_updated", "admin"⟩])

/-- The queue rank the selector realises, as a reflexive order: `r` is ranked
no later than `t` when its priority string is greater in the column's
collation (`vip` before `normal` before `elevated`), or priorities are equal
and `r` was generated earlier, or both are equal and `r`'s id is no larger. -/
def rankBefore (r t : Token) : Prop :=
  strLt t.priority r.priority = true ∨
    (r.priority = t.priority ∧ r.generated_at < t.generated_at) ∨
    (r.priority = t.priority ∧ r.generated_at = t.generated_at ∧
      r.token_id ≤ t.token_id)

/-- A template ticket for the concrete stores used in the theorems below: a
waiting `general_query` ticket of customer 7, issued at time 0 on 2025-10-11
with sequence 1. -/
def baseTok : Token :=
  { token_id := 1,
    token_number := generate_token_number TOKEN_PREFIX ("20251011") 1,
    customer_id := 7, service_type := ("general_query"),
    priority := ("normal"), status := ("waiting"), counter_number := none,
    estimated_wait_time := none, generated_at := 0,
    generated_date := ("20251011"), called_at := none, completed_at := none,
    notes := none, served_by := none }

/-- A completed ticket of customer 7 (used against the transition claims). -/
def cexDoneTok : Token :=
  { baseTok with status := ("completed"), completed_at := some 3 }

/-- A completed ticket of customer 7 (used against the cancellation claim). -/
def cexCancelTok : Token :=
  { baseTok with status := ("completed"), completed_at := some 3 }

/-- An in-progress ticket of customer 7. -/
def inProgTok : Token :=
  { baseTok with status := ("in_progress"), called_at := some 2 }

/-- The sole user of the concrete issuance scenario: customer 1 with no
account flags. -/
def demoUsers : List User :=
  [{ user_id := 1, role := ("customer"), account_number := none }]

/-- The ticket that issuing for customer 1 into an empty store on 2025-10-11
at time 0 produces: sequence 1, priority `normal`, a five-minute estimate. -/
def demoTok : Token :=
  { token_id := 1, token_number := ("TKN20251011001"), customer_id := 1,
    service_type := ("general_query"), priority := ("normal"),
    status := ("waiting"), counter_number := none,
    estimated_wait_time := some 5, generated_at := 0,
    generated_date := ("20251011"), called_at := none, completed_at := none,
    notes := none, served_by := none }

/-- A ticket issued on 2025-10-11 with sequence 1000: the padded field of its
number has four digits. -/
def cexSeqTok : Token :=
  { baseTok with token_number := generate_token_number TOKEN_PREFIX ("20251011") 1000 }

/-- A ticket issued on 2025-10-11 with sequence 5. -/
def c2WitTok : Token :=
  { baseTok with token_number := generate_token_number TOKEN_PREFIX ("20251011") 5 }

/-- A waiting elevated-class ticket issued at time 0. -/
def cexElevTok : Token :=
  { baseTok with priority := ("elevated") }

/-- A waiting normal-class ticket issued later, at time 100. -/
def cexNormTok : Token :=
  { baseTok with token_id := 2, generated_at := 100 }

/-- A waiting vip ticket issued at time 50. -/
def witVipTok : Token :=
  { baseTok with priority := ("vip"), generated_at := 50 }

/-- A waiting normal ticket issued at time 0, stored after the vip one. -/
def witNormTok : Token :=
  { baseTok with token_id := 2 }

/-- Helper: the seed of `List.foldl max` is a lower bound of the result. -/
theorem foldl_max_le (l : List Nat) : ∀ b : Nat, b ≤ l.foldl max b := by
  induction l with
  | nil => intro b; simp
  | cons x l ih => intro b; exact le_trans (le_max_left b x) (ih (max b x))

/-- Helper: every member of a list is bounded by its `foldl max`. -/
theorem mem_le_foldl_max (l : List Nat) : ∀ b : Nat, ∀ a ∈ l, a ≤ l.foldl max b := by
  induction l with
  | nil => intro b a ha; cases ha
  | cons x l ih =>
    intro b a ha
    cases ha with
    | head => exact le_trans (le_max_right b x) (foldl_max_le l (max b x))
    | tail _ h => exact ih (max b x) a h

/-- Helper: stored tokens have ids strictly below the next autoincrement id. -/
theorem token_id_lt_newTokenId (store : List Token) (t : Token) (ht : t ∈ store) :
    t.token_id < newTokenId store := by
  unfold newTokenId
  have h1 : t.token_id ∈ store.map (fun u => u.token_id) :=
    List.mem_map_of_mem _ ht
  have h2 := mem_le_foldl_max (store.map (fun u => u.token_id)) 0 _ h1
  omega

/-- Helper: a status-preserving rewrite of every row preserves the waiting
count. -/
theorem count_waiting_map_eq (l : List Token) (f : Token → Token)
    (h : ∀ t ∈ l, (f t).status = t.status) :
    count_waiting (l.map f) = count_waiting l := by
  induction l with
  | nil => rfl
  | cons a l ih =>
    have ha := h a (List.mem_cons_self a l)
    have ih2 := ih (fun t ht => h t (List.mem_cons_of_mem a ht))
    unfold count_waiting at ih2 ⊢
    simp only [List.map_cons, List.filter_cons, ha]
    by_cases hs : a.status = "waiting" <;> simp [hs, ih2]

/-- Helper: committing the wait estimate into the freshly inserted row leaves
the waiting count of the store unchanged. -/
theorem count_waiting_commit (store : List Token) (token : Token)
    (est : Option Nat) (hid : token.token_id = newTokenId store) :
    count_waiting ((store ++ [token]).map
      (fun t => if t.token_id = token.token_id then
        { token with estimated_wait_time := est } else t)) =
    count_waiting (store ++ [token]) := by
  apply count_waiting_map_eq
  intro t ht
  by_cases hq : t.token_id = token.token_id
  · rcases List.mem_append.mp ht with hl | hr
    · have hlt := token_id_lt_newTokenId store t hl
      rw [hid] at hq
      exact absurd hq (Nat.ne_of_lt hlt)
    · have ht2 : t = token := List.mem_singleton.mp hr
      subst ht2
      simp
  · simp [hq]

/-- Helper: when no stored ticket is waiting, the selector's query is empty
and `get_next_token_to_call` returns `none`. -/
theorem get_next_none_of_no_waiting (store : List Token)
    (h : ∀ t ∈ store, t.status ≠ "waiting") :
    get_next_token_to_call store = none := by
  unfold get_next_token_to_call
  have he : store.filter (fun t => decide (t.status = "waiting")) = [] := by
    rw [List.filter_eq_nil_iff]
    intro a ha
    simp [h a ha]
  rw [he]
  rfl

/-- Claim C9: the priority computed at issuance is always `vip` or `normal`
and never `elevated`; it is `vip` exactly when the customer's role is `admin`
or the account number contains the substring `VIP`. -/
theorem determine_priority_spec (c : User) :
    (determine_priority c = "vip" ∨ determine_priority c = "normal") ∧
    determine_priority c ≠ "elevated" ∧
    (determine_priority c = "vip" ↔
      (c.role = "admin" ∨ accountHasVIP c.account_number = true)) := by
  unfold determine_priority
  by_cases h1 : c.role = "admin" <;> by_cases h2 : accountHasVIP c.account_number <;>
    simp [h1, h2]

/-- Claim C10: cancellation is atomic on failure — whenever `cancel_token`
returns an error outcome, the committed store is exactly the input store. -/
theorem cancel_token_atomic_on_failure (store : List Token)
    (token_id customer_id : Nat)
    (h : (cancel_token store token_id customer_id).1.status = "error") :
    (cancel_token store token_id customer_id).2 = store := by
  unfold cancel_token at h ⊢
  cases hf : get_token_by_id store token_id with
  | none => simp [hf]
  | some tok =>
    rw [hf] at h
    by_cases h1 : tok.customer_id ≠ customer_id
    · simp [h1]
    · by_cases h2 : tok.status ≠ "waiting"
      · simp [h1, h2]
      · simp [h1, h2] at h

/-- Claim C10 witness: cancelling a ticket absent from the (empty) store is an
error outcome and leaves the store unchanged. -/
theorem cancel_token_atomic_on_failure_witness :
    (cancel_token [] 1 1).2 = [] :=
  cancel_token_atomic_on_failure [] 1 1 (by decide)

/-- Claim C1 (code behaviour at the failing input): `update_token_status`
accepts the forbidden `completed → waiting` transition — it reports success
with the status rewritten to `waiting` and commits the change — and
`call_token` likewise "calls" a completed ticket to `in_progress`, reporting
success rather than rejecting with an InvalidTransition outcome. -/
theorem update_status_accepts_any_transition :
    ((update_token_status [cexDoneTok] 1 ("waiting") none none none 5).1.map
        (fun t => t.status) = some ("waiting")) ∧
    (update_token_status [cexDoneTok] 1 ("waiting") none none none 5).2 ≠
      [cexDoneTok] ∧
    cexDoneTok.status = "completed" ∧
    (call_token [cexDoneTok] 1 ("Counter 1") 9 5).1.status = "success" := by
  decide

/-- Claim C6: CallNext on a queue with no waiting ticket answers the
EmptyQueue error as an ordinary result value, commits no change to any
ticket, and emits no fan-out event. -/
theorem call_next_empty_queue (store : List Token) (counter_number : String)
    (served_by now : Nat) (h : ∀ t ∈ store, t.status ≠ "waiting") :
    call_next_token_endpoint store counter_number served_by now =
      (⟨"error", "No tokens in queue", none⟩, store, []) := by
  unfold call_next_token_endpoint call_next_token
  rw [get_next_none_of_no_waiting store h]
  rfl

/-- Claim C6 witness: the empty store has no waiting ticket; calling next
yields the EmptyQueue error body, the unchanged store, and no events. -/
theorem call_next_empty_queue_witness :
    call_next_token_endpoint [] ("Counter 1") 9 5 =
      (⟨"error", "No tokens in queue", none⟩, [], []) :=
  call_next_empty_queue [] ("Counter 1") 9 5 (by simp)

/-- Claim C5 counterexample: `cexCancelTok` belongs to customer 7 and is
`completed`; the non-owner caller 8 receives the Unauthorized error, not the
InvalidTransition error the claim requires for every caller on a non-waiting
ticket. -/
theorem cancel_nonwaiting_nonowner_cex :
    cexCancelTok.status ≠ "waiting" ∧ cexCancelTok.customer_id = 7 ∧
    (cancel_token [cexCancelTok] 1 8).1 =
      ⟨"error", "Unauthorized to cancel this token"⟩ ∧
    (cancel_token [cexCancelTok] 1 8).1.message ≠
      "Only waiting tokens can be cancelled" := by
  decide

/-- Claim C5 (amended): the ownership check runs before the status check — a
non-owner always receives the Unauthorized error whatever the ticket's
status, and the owner of a non-waiting ticket receives the InvalidTransition
error; both failures leave the store unchanged. -/
theorem cancel_token_errors (store : List Token) (token_id caller : Nat)
    (tok : Token) (hfind : get_token_by_id store token_id = some tok) :
    (tok.customer_id ≠ caller →
      cancel_token store token_id caller =
        (⟨"error", "Unauthorized to cancel this token"⟩, store)) ∧
    (tok.customer_id = caller → tok.status ≠ "waiting" →
      cancel_token store token_id caller =
        (⟨"error", "Only waiting tokens can be cancelled"⟩, store)) := by
  unfold cancel_token
  rw [hfind]
  constructor
  · intro h1
    simp [h1]
  · intro h1 h2
    simp [h1, h2]

/-- Claim C5 witness: caller 8 is not the owner of `cexCancelTok`, so the
cancel attempt returns the Unauthorized error with the unchanged store. -/
theorem cancel_token_errors_witness :
    cancel_token [cexCancelTok] 1 8 =
      (⟨"error", "Unauthorized to cancel this token"⟩, [cexCancelTok]) :=
  (cancel_token_errors [cexCancelTok] 1 8 cexCancelTok (by decide)).1 (by decide)

/-- Helper: the effect of `update_token_status` with status `completed` on an
existing token — the snapshot gets status `completed`, `completed_at := now`
and the staff id, and the store commits exactly that row. -/
theorem update_token_status_completed (store : List Token) (token_id : Nat)
    (served_by now : Nat) (tok : Token)
    (hf : get_token_by_id store token_id = some tok) :
    update_token_status store token_id ("completed") none none (some served_by) now =
      (some { tok with
                status := ("completed"),
                completed_at := some now,
                served_by := some served_by },
       store.map (fun u => if u.token_id = token_id then
         { tok with
             status := ("completed"),
             completed_at := some now,
             served_by := some served_by } else u)) := by
  unfold update_token_status
  rw [hf]
  rfl

/-- Claim C7: Complete succeeds exactly when the ticket exists with status
`in_progress`; on success the stored snapshot is `completed` with
`completed_at` stamped to the call time and the staff id recorded; when the
ticket exists in any other status the call fails with the InvalidTransition
error and the store is unchanged. -/
theorem complete_token_spec (store : List Token) (token_id served_by now : Nat) :
    ((complete_token store token_id served_by now).1.status = "success" ↔
      ∃ tok, get_token_by_id store token_id = some tok ∧
        tok.status = "in_progress") ∧
    (∀ tok, get_token_by_id store token_id = some tok →
      tok.status = "in_progress" →
      (complete_token store token_id served_by now).1.token =
        some { tok with
                 status := ("completed"),
                 completed_at := some now,
                 served_by := some served_by } ∧
      (complete_token store token_id served_by now).2 =
        store.map (fun u => if u.token_id = token_id then
          { tok with
              status := ("completed"),
              completed_at := some now,
              served_by := some served_by } else u)) ∧
    (∀ tok, get_token_by_id store token_id = some tok →
      tok.status ≠ "in_progress" →
      (complete_token store token_id served_by now).1 =
        ⟨"error", "Token is not in progress", none⟩ ∧
      (complete_token store token_id served_by now).2 = store) := by
  unfold complete_token
  cases hf : get_token_by_id store token_id with
  | none => simp [hf]
  | some tok =>
    by_cases hst : tok.status = "in_progress"
    · rw [update_token_status_completed store token_id served_by now tok hf]
      simp [hf, hst]
    · simp [hf, hst]

/-- Claim C7 witness: completing the waiting ticket `baseTok` (never called)
fails with the InvalidTransition error and leaves the store unchanged. -/
theorem complete_token_spec_witness :
    (complete_token [baseTok] 1 9 5).1 =
      ⟨"error", "Token is not in progress", none⟩ ∧
    (complete_token [baseTok] 1 9 5).2 = [baseTok] :=
  (complete_token_spec [baseTok] 1 9 5).2.2 baseTok (by decide) (by decide)

/-- Claim C8: every successful Issue stores the new ticket with status
`waiting` and an estimate equal to the waiting count of the committed store
(which includes the new ticket) times the default five average service
minutes. -/
theorem generate_token_wait_estimate (users : List User) (store : List Token)
    (customer_id : Nat) (service_type : String) (notes : Option String)
    (today : String) (now : Nat) (st : List Token) (tok : Token)
    (h : generate_token users store customer_id service_type notes today now =
      some (st, tok)) :
    tok.status = "waiting" ∧ tok ∈ st ∧
    tok.estimated_wait_time = some (count_waiting st * 5) := by
  unfold generate_token at h
  cases hu : users.find? (fun u => decide (u.user_id = customer_id)) with
  | none => rw [hu] at h; cases h
  | some customer =>
    rw [hu] at h
    injection h with h
    obtain ⟨h1, h2⟩ := Prod.mk.inj h
    subst h1
    subst h2
    refine ⟨rfl, ?_, ?_⟩
    · refine List.mem_map.mpr
        ⟨issuedToken store customer customer_id service_type notes today now,
         List.mem_append_right store (List.mem_singleton_self _), ?_⟩
      simp
    · rw [count_waiting_commit store
        (issuedToken store customer customer_id service_type notes today now) _ rfl]
      rfl

/-- Claim C8 witness: issuing for customer 1 into the empty store commits the
single ticket `demoTok`, whose estimate is the waiting count 1 times 5. -/
theorem generate_token_wait_estimate_witness :
    demoTok.status = "waiting" ∧ demoTok ∈ [demoTok] ∧
    demoTok.estimated_wait_time = some (count_waiting [demoTok] * 5) :=
  generate_token_wait_estimate demoUsers [] 1 ("general_query") none
    ("20251011") 0 [demoTok] demoTok (by decide)

/-- Helper: a decimal digit's character has code 48 plus the digit. -/
theorem digitChar_toNat (k : Nat) (h : k ≤ 9) : (Nat.digitChar k).toNat = 48 + k := by
  interval_cases k <;> decide

/-- Helper: for sequences up to 999 the padded field is exactly the three
decimal digits. -/
theorem pad3_data (s : Nat) (h : s ≤ 999) :
    (pad3 s).data = [Nat.digitChar (s / 100), Nat.digitChar (s / 10 % 10),
      Nat.digitChar (s % 10)] := by
  unfold pad3
  rw [if_pos (by omega : s < 1000)]

/-- Helper: reading the three padded digits back yields the sequence. -/
theorem parseDigits_pad3 (s : Nat) (h : s ≤ 999) : parseDigits (pad3 s) = s := by
  unfold parseDigits
  rw [pad3_data s h]
  simp only [List.foldl_cons, List.foldl_nil]
  rw [digitChar_toNat (s / 100) (by omega), digitChar_toNat (s / 10 % 10) (by omega),
    digitChar_toNat (s % 10) (by omega)]
  omega

/-- Helper: the final three characters of a string with a three-character
suffix are that suffix. -/
theorem lastChars_append3 (a b : String) (hb : b.data.length = 3) :
    lastChars 3 (a ++ b) = b := by
  unfold lastChars
  rw [String.data_append]
  have hlen : (a.data ++ b.data).length - 3 = a.data.length := by
    rw [List.length_append]
    omega
  rw [hlen, List.drop_left]

/-- Helper: the allocator's three-character read recovers any sequence up to
999 from a generated number. -/
theorem parseSeq_generate (pfx date_str : String) (s : Nat) (h : s ≤ 999) :
    parseSeq (generate_token_number pfx date_str s) = s := by
  unfold parseSeq generate_token_number
  rw [lastChars_append3 (pfx ++ date_str) (pad3 s) (by rw [pad3_data s h]; rfl)]
  exact parseDigits_pad3 s h

/-- Helper: the eight characters before the final three of a generated number
are the date, for sequences up to 999. -/
theorem parseDate_generate (pfx date_str : String) (s : Nat)
    (hd : date_str.data.length = 8) (h : s ≤ 999) :
    parseDate (generate_token_number pfx date_str s) = date_str := by
  unfold parseDate generate_token_number
  have h3 : (pad3 s).data.length = 3 := by rw [pad3_data s h]; rfl
  rw [String.data_append, String.data_append, List.append_assoc]
  have hlen : (pfx.data ++ (date_str.data ++ (pad3 s).data)).length - 11 =
      pfx.data.length := by
    simp only [List.length_append, hd, h3]
    omega
  rw [hlen, List.drop_left, List.take_left' hd]

/-- Claim C3 counterexample: at sequence 1000 the padded field has four
digits, so the fixed-width read-back recovers neither the sequence (it reads
0) nor the date (the eight-character window shifts). -/
theorem token_number_roundtrip_cex :
    parseSeq (generate_token_number ("TKN") ("20251011") 1000) = 0 ∧
    parseDate (generate_token_number ("TKN") ("20251011") 1000) = "02510111" ∧
    ¬ (parseSeq (generate_token_number ("TKN") ("20251011") 1000) = 1000 ∧
       parseDate (generate_token_number ("TKN") ("20251011") 1000) = "20251011") := by
  decide

/-- Claim C3 (amended): for every prefix, every eight-character date and every
sequence from 1 to 999 — the full range the three-digit zero-padded field can
carry — parsing the generated number (final three characters as the sequence,
the eight before them as the date) recovers the exact date and sequence. -/
theorem token_number_roundtrip (pfx date_str : String) (sequence : Nat)
    (hd : date_str.data.length = 8) (h1 : 1 ≤ sequence) (h2 : sequence ≤ 999) :
    parseSeq (generate_token_number pfx date_str sequence) = sequence ∧
    parseDate (generate_token_number pfx date_str sequence) = date_str :=
  ⟨parseSeq_generate pfx date_str sequence h2,
   parseDate_generate pfx date_str sequence hd h2⟩

/-- Claim C3 witness: the round-trip at prefix TKN, date 2025-10-11,
sequence 7. -/
theorem token_number_roundtrip_witness :
    parseSeq (generate_token_number ("TKN") ("20251011") 7) = 7 ∧
    parseDate (generate_token_number ("TKN") ("20251011") 7) = "20251011" :=
  token_number_roundtrip ("TKN") ("20251011") 7 (by decide) (by decide) (by decide)

/-- Helper: the id-maximising fold of `last_token_of_today`, seeded with `m`,
returns a member of `m :: l` whose id dominates the seed and every element. -/
theorem foldl_maxBy_spec (l : List Token) : ∀ m : Token,
    ∃ c, l.foldl (fun acc t =>
        match acc with
        | none => some t
        | some m => if m.token_id < t.token_id then some t else some m) (some m) =
        some c ∧
      c ∈ m :: l ∧ m.token_id ≤ c.token_id ∧ ∀ u ∈ l, u.token_id ≤ c.token_id := by
  induction l with
  | nil =>
    intro m
    exact ⟨m, rfl, List.mem_cons_self m [], le_refl _, by intro u hu; cases hu⟩
  | cons t ts ih =>
    intro m
    rw [List.foldl_cons]
    by_cases hlt : m.token_id < t.token_id
    · obtain ⟨c, hc, hmem, hle, hall⟩ := ih t
      refine ⟨c, ?_, List.mem_cons_of_mem m hmem, le_of_lt (lt_of_lt_of_le hlt hle), ?_⟩
      · simpa [hlt] using hc
      · intro u hu
        cases hu with
        | head => exact hle
        | tail _ hu2 => exact hall u hu2
    · obtain ⟨c, hc, hmem, hle, hall⟩ := ih m
      refine ⟨c, ?_, ?_, hle, ?_⟩
      · simpa [hlt] using hc
      · cases hmem with
        | head => exact List.mem_cons_self _ _
        | tail _ hm2 => exact List.mem_cons_of_mem _ (List.mem_cons_of_mem _ hm2)
      · intro u hu
        cases hu with
        | head => exact le_trans (Nat.le_of_not_lt hlt) hle
        | tail _ hu2 => exact hall u hu2

/-- Helper: on a non-empty day, `last_token_of_today` returns one of the
day's rows, and that row carries the maximal id of the day. -/
theorem last_token_of_today_spec (store : List Token) (today : String)
    (t0 : Token) (ts : List Token) (h : todayTokens store today = t0 :: ts) :
    ∃ c, last_token_of_today store today = some c ∧
      c ∈ todayTokens store today ∧
      ∀ u ∈ todayTokens store today, u.token_id ≤ c.token_id := by
  unfold last_token_of_today
  rw [h, List.foldl_cons]
  obtain ⟨c, hc, hmem, hle, hall⟩ := foldl_maxBy_spec ts t0
  refine ⟨c, hc, hmem, ?_⟩
  intro u hu
  cases hu with
  | head => exact hle
  | tail _ hu2 => exact hall u hu2

/-- Claim C2 counterexample: `cexSeqTok` was issued on 2025-10-11 with
sequence 1000 (its number is exactly the generated one); the allocator's next
sequence for that date is 1 — not 1001 — so once a day passes 999 tickets
the sequence restarts and numbers are reused. -/
theorem next_sequence_overflow_cex :
    cexSeqTok.token_number = generate_token_number TOKEN_PREFIX ("20251011") 1000 ∧
    cexSeqTok.generated_date = "20251011" ∧
    nextSequence [cexSeqTok] "20251011" = 1 := by
  decide

/-- Claim C2 (amended): the allocator assigns sequence 1 when no ticket
exists yet for the date, and otherwise one more than the maximal sequence
already issued for the date, provided that maximum is at most 999 (the full
width of the zero-padded field, so the read-back of the last number is
faithful). `tokSeq` is the sequence the allocator reads back from a stored
row; the hypotheses state that ids are unique (primary key) and that
sequences grow with insertion order, both of which issuance maintains while
the day stays under 1000 tickets. -/
theorem next_sequence_spec (store : List Token) (today : String)
    (hids : ((todayTokens store today).map (fun t => t.token_id)).Nodup)
    (hmono : ∀ t ∈ todayTokens store today, ∀ u ∈ todayTokens store today,
      t.token_id < u.token_id → tokSeq t < tokSeq u) :
    (todayTokens store today = [] → nextSequence store today = 1) ∧
    (∀ t ∈ todayTokens store today, ∀ s, 1 ≤ s → s ≤ 999 →
      t.token_number = generate_token_number TOKEN_PREFIX today s →
      (∀ u ∈ todayTokens store today, tokSeq u ≤ s) →
      nextSequence store today = s + 1) := by
  constructor
  · intro he
    unfold nextSequence last_token_of_today
    rw [he]
    rfl
  · intro t ht s hs1 hs2 hnum hmax
    cases hcase : todayTokens store today with
    | nil =>
      rw [hcase] at ht
      cases ht
    | cons t0 ts =>
      obtain ⟨c, hc, hcmem, hcall⟩ := last_token_of_today_spec store today t0 ts hcase
      unfold nextSequence
      rw [hc]
      have htseq : tokSeq t = s := by
        unfold tokSeq
        rw [hnum]
        exact parseSeq_generate TOKEN_PREFIX today s hs2
      have hle1 : tokSeq c ≤ s := hmax c hcmem
      have hle2 : tokSeq t ≤ tokSeq c := by
        by_cases heq : t = c
        · rw [heq]
        · have hinj := List.inj_on_of_nodup_map hids
          have hne : t.token_id ≠ c.token_id := fun hid => heq (hinj ht hcmem hid)
          have hlt : t.token_id < c.token_id := lt_of_le_of_ne (hcall t ht) hne
          exact le_of_lt (hmono t ht c hcmem hlt)
      have hcs : tokSeq c = s := le_antisymm hle1 (htseq ▸ hle2)
      exact congrArg (fun x => x + 1) hcs

/-- Claim C2 witness: a day holding the single ticket `c2WitTok` of sequence
5 gets 6 as its next sequence. -/
theorem next_sequence_spec_witness :
    nextSequence [c2WitTok] "20251011" = 5 + 1 :=
  (next_sequence_spec [c2WitTok] ("20251011") (by decide) (by decide)).2
    c2WitTok (by decide) 5 (by decide) (by decide) (by decide) (by decide)

/-- Helper: characters with equal code points are equal. -/
theorem char_eq_of_toNat_eq (a b : Char) (h : a.toNat = b.toNat) : a = b := by
  have h2 : a.val = b.val := by
    unfold Char.toNat at h
    exact UInt32.toNat.inj h
  exact Char.eq_of_val_eq h2

/-- Helper: the collation comparison is transitive. -/
theorem charListLt_trans (a : List Char) : ∀ b c : List Char,
    charListLt a b = true → charListLt b c = true → charListLt a c = true := by
  induction a with
  | nil =>
    intro b c hab hbc
    match b, c with
    | [], _ => simp [charListLt] at hab
    | y :: ys, [] => simp [charListLt] at hbc
    | y :: ys, z :: zs => simp [charListLt]
  | cons x xs ih =>
    intro b c hab hbc
    match b, c with
    | [], _ => simp [charListLt] at hab
    | y :: ys, [] => simp [charListLt] at hbc
    | y :: ys, z :: zs =>
      simp only [charListLt] at hab hbc ⊢
      rcases Nat.lt_trichotomy x.toNat y.toNat with hxy | hxy | hxy <;>
        rcases Nat.lt_trichotomy y.toNat z.toNat with hyz | hyz | hyz
      · rw [if_pos (Nat.lt_trans hxy hyz)]
      · rw [if_pos (show x.toNat < z.toNat by omega)]
      · rw [if_neg (show ¬ y.toNat < z.toNat by omega), if_pos hyz] at hbc
        cases hbc
      · rw [if_pos (show x.toNat < z.toNat by omega)]
      · rw [if_neg (show ¬ x.toNat < y.toNat by omega),
          if_neg (show ¬ y.toNat < x.toNat by omega)] at hab
        rw [if_neg (show ¬ y.toNat < z.toNat by omega),
          if_neg (show ¬ z.toNat < y.toNat by omega)] at hbc
        rw [if_neg (show ¬ x.toNat < z.toNat by omega),
          if_neg (show ¬ z.toNat < x.toNat by omega)]
        exact ih ys zs hab hbc
      · rw [if_neg (show ¬ y.toNat < z.toNat by omega), if_pos hyz] at hbc
        cases hbc
      · rw [if_neg (show ¬ x.toNat < y.toNat by omega), if_pos hxy] at hab
        cases hab
      · rw [if_neg (show ¬ x.toNat < y.toNat by omega), if_pos hxy] at hab
        cases hab
      · rw [if_neg (show ¬ x.toNat < y.toNat by omega), if_pos hxy] at hab
        cases hab

/-- Helper: when the collation comparison answers false, the lists are equal
or strictly ordered the other way. -/
theorem charListLt_false (a : List Char) : ∀ b : List Char,
    charListLt a b = false → a = b ∨ charListLt b a = true := by
  induction a with
  | nil =>
    intro b hab
    match b with
    | [] => exact Or.inl rfl
    | y :: ys => simp [charListLt] at hab
  | cons x xs ih =>
    intro b hab
    match b with
    | [] =>
      refine Or.inr ?_
      simp [charListLt]
    | y :: ys =>
      simp only [charListLt] at hab ⊢
      rcases Nat.lt_trichotomy x.toNat y.toNat with hxy | hxy | hxy
      · rw [if_pos hxy] at hab
        cases hab
      · rw [if_neg (show ¬ x.toNat < y.toNat by omega),
          if_neg (show ¬ y.toNat < x.toNat by omega)] at hab
        rcases ih ys hab with he | hlt
        · refine Or.inl ?_
          rw [char_eq_of_toNat_eq x y hxy, he]
        · refine Or.inr ?_
          rw [if_neg (show ¬ y.toNat < x.toNat by omega),
            if_neg (show ¬ x.toNat < y.toNat by omega)]
          exact hlt
      · refine Or.inr ?_
        rw [if_pos hxy]

/-- Helper: transitivity of `strLt`. -/
theorem strLt_trans (a b c : String) (h1 : strLt a b = true)
    (h2 : strLt b c = true) : strLt a c = true :=
  charListLt_trans a.data b.data c.data h1 h2

/-- Helper: totality of `strLt`. -/
theorem strLt_false (a b : String) (h : strLt a b = false) :
    a = b ∨ strLt b a = true := by
  rcases charListLt_false a.data b.data h with he | hlt
  · exact Or.inl (String.ext he)
  · exact Or.inr hlt

/-- Helper: `rankBefore` is transitive. -/
theorem rankBefore_trans (a b c : Token) (h1 : rankBefore a b)
    (h2 : rankBefore b c) : rankBefore a c := by
  unfold rankBefore at h1 h2 ⊢
  rcases h1 with h1 | ⟨e1, h1⟩ | ⟨e1, f1, h1⟩ <;>
    rcases h2 with h2 | ⟨e2, h2⟩ | ⟨e2, f2, h2⟩
  · exact Or.inl (strLt_trans _ _ _ h2 h1)
  · exact Or.inl (e2 ▸ h1)
  · exact Or.inl (e2 ▸ h1)
  · exact Or.inl (e1.symm ▸ h2)
  · exact Or.inr (Or.inl ⟨e1.trans e2, Nat.lt_trans h1 h2⟩)
  · exact Or.inr (Or.inl ⟨e1.trans e2, by omega⟩)
  · exact Or.inl (e1.symm ▸ h2)
  · exact Or.inr (Or.inl ⟨e1.trans e2, by omega⟩)
  · exact Or.inr (Or.inr ⟨e1.trans e2, f1.trans f2, Nat.le_trans h1 h2⟩)

/-- Helper: `rankBefore` is reflexive. -/
theorem rankBefore_refl (a : Token) : rankBefore a a :=
  Or.inr (Or.inr ⟨rfl, rfl, Nat.le_refl _⟩)

/-- Helper: a row the comparison puts strictly first is ranked first. -/
theorem rankBefore_of_before (t m : Token) (h : beforeInCallOrder t m = true) :
    rankBefore t m := by
  unfold beforeInCallOrder at h
  unfold rankBefore
  by_cases he : t.priority = m.priority
  · rw [if_pos he] at h
    exact Or.inr (Or.inl ⟨he, of_decide_eq_true h⟩)
  · rw [if_neg he] at h
    exact Or.inl h

/-- Helper: a kept row (not strictly after, stored earlier) is ranked first. -/
theorem rankBefore_of_not_before (t m : Token) (h : beforeInCallOrder t m = false)
    (hid : m.token_id < t.token_id) : rankBefore m t := by
  unfold beforeInCallOrder at h
  unfold rankBefore
  by_cases he : t.priority = m.priority
  · rw [if_pos he] at h
    have hnot : ¬ t.generated_at < m.generated_at := of_decide_eq_false h
    rcases Nat.lt_or_ge m.generated_at t.generated_at with h2 | h2
    · exact Or.inr (Or.inl ⟨he.symm, h2⟩)
    · have heq : m.generated_at = t.generated_at := by omega
      exact Or.inr (Or.inr ⟨he.symm, heq, Nat.le_of_lt hid⟩)
  · rw [if_neg he] at h
    rcases strLt_false m.priority t.priority h with heq | hlt
    · exact absurd heq.symm he
    · exact Or.inl hlt

/-- Helper: the selector's fold, seeded with a stored row `m` that precedes
every remaining row, returns a row ranked no later than the seed and every
element of the list. -/
theorem firstByCallOrder_go (l : List Token) : ∀ m : Token,
    (∀ u ∈ l, m.token_id < u.token_id) →
    l.Pairwise (fun a b => a.token_id < b.token_id) →
    ∃ c, l.foldl (fun acc t =>
        match acc with
        | none => some t
        | some m => if beforeInCallOrder t m then some t else some m) (some m) =
        some c ∧
      c ∈ m :: l ∧ rankBefore c m ∧ ∀ u ∈ l, rankBefore c u := by
  induction l with
  | nil =>
    intro m hm hp
    exact ⟨m, rfl, List.mem_cons_self m [], rankBefore_refl m, by intro u hu; cases hu⟩
  | cons t ts ih =>
    intro m hm hp
    rw [List.foldl_cons]
    have hpts := (List.pairwise_cons.mp hp).2
    have htts := (List.pairwise_cons.mp hp).1
    cases hb : beforeInCallOrder t m with
    | true =>
      have hstep : rankBefore t m := rankBefore_of_before t m hb
      obtain ⟨c, hc, hmem, hcm, hall⟩ := ih t htts hpts
      refine ⟨c, ?_, List.mem_cons_of_mem m hmem,
        rankBefore_trans c t m hcm hstep, ?_⟩
      · simpa [hb] using hc
      · intro u hu
        cases hu with
        | head => exact hcm
        | tail _ hu2 => exact hall u hu2
    | false =>
      have hstep : rankBefore m t :=
        rankBefore_of_not_before t m hb (hm t (List.mem_cons_self t ts))
      have hmts : ∀ u ∈ ts, m.token_id < u.token_id :=
        fun u hu => hm u (List.mem_cons_of_mem t hu)
      obtain ⟨c, hc, hmem, hcm, hall⟩ := ih m hmts hpts
      refine ⟨c, ?_, ?_, hcm, ?_⟩
      · simpa [hb] using hc
      · cases hmem with
        | head => exact List.mem_cons_self _ _
        | tail _ hm2 => exact List.mem_cons_of_mem _ (List.mem_cons_of_mem _ hm2)
      · intro u hu
        cases hu with
        | head => exact rankBefore_trans c m t hcm hstep
        | tail _ hu2 => exact hall u hu2

/-- Claim C4 counterexample: a snapshot holding a waiting elevated ticket
issued at time 0 and a waiting normal ticket issued at time 100 — the claim
ranks elevated above normal, but the selector returns the normal ticket,
because the stored priority strings are compared descending and `normal`
sorts above `elevated`. -/
theorem select_next_elevated_cex :
    cexElevTok.priority = "elevated" ∧ cexNormTok.priority = "normal" ∧
    cexElevTok.status = "waiting" ∧ cexNormTok.status = "waiting" ∧
    cexElevTok.generated_at < cexNormTok.generated_at ∧
    get_next_token_to_call [cexElevTok, cexNormTok] = some cexNormTok := by
  decide

/-- Claim C4 (amended): over a snapshot stored in primary-key order, the
selector is a pure function of the snapshot (so deterministic); it returns
`none` exactly when no ticket is waiting, and otherwise a waiting ticket
ranked first under the order the code realises: priority string descending in
the column collation — `vip` above `normal` above `elevated` — then
`generated_at` ascending, with ties broken by id ascending. On the
vip/normal-only snapshots issuance actually produces, this is the claimed
order. -/
theorem select_next_spec (store : List Token)
    (hsorted : store.Pairwise (fun a b => a.token_id < b.token_id)) :
    (get_next_token_to_call store = none ↔ ∀ t ∈ store, t.status ≠ "waiting") ∧
    (∀ r, get_next_token_to_call store = some r →
      r ∈ store ∧ r.status = "waiting" ∧
      ∀ t ∈ store, t.status = "waiting" → rankBefore r t) := by
  have hsub : List.Sublist (store.filter (fun t => decide (t.status = "waiting")))
      store := List.filter_sublist store
  have hwp := hsorted.sublist hsub
  unfold get_next_token_to_call firstByCallOrder
  cases hw : store.filter (fun t => decide (t.status = "waiting")) with
  | nil =>
    constructor
    · constructor
      · intro _ t ht hst
        have : t ∈ store.filter (fun t => decide (t.status = "waiting")) :=
          List.mem_filter.mpr ⟨ht, by simp [hst]⟩
        rw [hw] at this
        cases this
      · intro _
        rfl
    · intro r hr
      cases hr
  | cons t0 ts =>
    rw [hw] at hwp
    have ht0 := (List.pairwise_cons.mp hwp).1
    have hts := (List.pairwise_cons.mp hwp).2
    rw [List.foldl_cons]
    obtain ⟨c, hc, hmem, _, hall⟩ := firstByCallOrder_go ts t0 ht0 hts
    have hcw : c ∈ store.filter (fun t => decide (t.status = "waiting")) := by
      rw [hw]
      exact hmem
    have hcmem := List.mem_filter.mp hcw
    constructor
    · constructor
      · intro hnone
        rw [hc] at hnone
        cases hnone
      · intro hno
        have ht0w : t0 ∈ store.filter (fun t => decide (t.status = "waiting")) := by
          rw [hw]
          exact List.mem_cons_self t0 ts
        have := List.mem_filter.mp ht0w
        exact absurd (of_decide_eq_true this.2) (hno t0 this.1)
    · intro r hr
      rw [hc] at hr
      cases hr
      refine ⟨hcmem.1, of_decide_eq_true hcmem.2, ?_⟩
      intro t ht hst
      have htw : t ∈ store.filter (fun t => decide (t.status = "waiting")) :=
        List.mem_filter.mpr ⟨ht, by simp [hst]⟩
      rw [hw] at htw
      cases htw with
      | head =>
        cases hmem with
        | head => exact rankBefore_refl _
        | tail _ hm2 =>
          obtain ⟨c2, hc2, hmem2, hcm2, hall2⟩ := firstByCallOrder_go ts t0 ht0 hts
          rw [hc] at hc2
          cases hc2
          exact hcm2
      | tail _ ht2 => exact hall t ht2

/-- Claim C4 witness: on the id-sorted snapshot holding a vip ticket issued at
time 50 and a normal ticket issued at time 0, the returned head (the vip
ticket) is ranked no later than the normal one. -/
theorem select_next_spec_witness :
    rankBefore witVipTok witNormTok :=
  (((select_next_spec [witVipTok, witNormTok] (by decide)).2 witVipTok
    (by decide)).2.2) witNormTok (by decide) (by decide)

end Banking
